import Mathlib

/-!
Shallow embedding of the revenue-analytics engine of `src/Streamlit.py`.

The script loads transaction records, filters them by country / minimum
revenue / selected year-months (line 32-34), derives a fiscal quarter from
each `[Year-Month]` label (line 44), builds quarter pivots of summed revenue
per client (lines 46-52) and per service line (lines 97-98), computes
quarter-over-quarter change columns (lines 53, 99), selects "lost" clients
(line 54) and the ten with the largest loss (line 82), aggregates monthly
revenue (line 258) and a 3-month rolling mean (line 259).

Numeric cells are modelled as `Int` (`Option Int` where the dataframe can
hold NaN), and pandas means as `ℚ`.  `groupby` uses its default
`sort=True`, so group keys come out sorted; string sorting is modelled by
`strLe`, code-point lexicographic comparison, which is what pandas does for
`object` (string) keys.
-/

/-- One transaction row of `data.csv`, after the CSV parse.  `revenue` and
the cost/profit measures are `Option Int`: `none` models a NaN cell
(missing / malformed numeric value). -/
structure Record where
  clientName : String
  country : String
  serviceLine : String
  serviceOffering : String
  yearMonth : String
  revenue : Option Int
  totalCost : Option Int
  grossProfit : Option Int
  directProfit : Option Int
deriving DecidableEq

/-- Helper to build a record when only the analysis-relevant fields matter. -/
def mkRec (client country line offering ym : String) (rev : Option Int) : Record :=
  { clientName := client, country := country, serviceLine := line,
    serviceOffering := offering, yearMonth := ym, revenue := rev,
    totalCost := none, grossProfit := none, directProfit := none }

/-- The row-selection predicate of line 32-34:
`(~Country.isin(excluded)) & (Revenue >= min_revenue) & ([Year-Month].isin(allowed))`.
A NaN revenue compares `False` against the threshold, exactly as in pandas. -/
def passes (excl : List String) (minRev : Int) (allowed : List String) (r : Record) : Bool :=
  decide (r.country ∉ excl) &&
    (match r.revenue with
     | some v => decide (minRev ≤ v)
     | none => false) &&
    decide (r.yearMonth ∈ allowed)

/-- Line 32-34: the filtered dataset, a boolean-mask row selection. -/
def filteredData (rows : List Record) (excl : List String) (minRev : Int)
    (allowed : List String) : List Record :=
  rows.filter (passes excl minRev allowed)

/-- Numeric value of a digit-character run, `none` when empty or when a
non-digit occurs (accumulator form). -/
def digitsValAux (acc : Nat) : List Char → Option Nat
  | [] => some acc
  | c :: cs => if '0' ≤ c ∧ c ≤ '9' then digitsValAux (acc * 10 + (c.toNat - 48)) cs else none

/-- Numeric value of a non-empty all-digit character list. -/
def digitsVal : List Char → Option Nat
  | [] => none
  | c :: cs => digitsValAux 0 (c :: cs)

/-- The year-month parse performed by `pd.to_datetime` on line 44, restricted
to the `"<year>-<month>"` labels the dataset uses: the characters before the
first `'-'` must be a digit run (the year), the characters after it a digit
run denoting a month in `1..12`.  Anything else fails (`none`), modelling the
exception `pd.to_datetime` raises on an unparseable label. -/
def parseYearMonth (s : String) : Option (Nat × Nat) :=
  match s.data.span (fun c => c ≠ '-') with
  | (ys, '-' :: ms) =>
    match digitsVal ys, digitsVal ms with
    | some y, some m => if 1 ≤ m ∧ m ≤ 12 then some (y, m) else none
    | _, _ => none
  | _ => none

/-- Line 44, `pd.to_datetime(...).dt.to_period('Q')` rendered as a label:
quarter `⌈month/3⌉` written `"<year>Q<q>"`; `none` models the raised
exception on an unparseable year-month. -/
def toQuarter (s : String) : Option String :=
  (parseYearMonth s).map (fun p => toString p.1 ++ "Q" ++ toString ((p.2 + 2) / 3))

/-- The `Quarter` column value of a record (line 44). -/
def quarterOf (r : Record) : Option String :=
  toQuarter r.yearMonth

/-- Code-point lexicographic comparison of character lists, the order pandas
uses when sorting string group keys. -/
def listLeChars : List Char → List Char → Bool
  | [], _ => true
  | _ :: _, [] => false
  | a :: as, b :: bs => if a < b then true else if b < a then false else listLeChars as bs

/-- Lexicographic `≤` on strings (by code points). -/
def strLe (s t : String) : Bool :=
  listLeChars s.data t.data

/-- `strLe` as a relation, used for sorting group keys. -/
def strLeP (s t : String) : Prop :=
  strLe s t = true

instance : DecidableRel strLeP := fun s t => by
  unfold strLeP; infer_instance

/-- The distinct group keys of a grouped aggregation, in the order pandas
`groupby(sort=True)` emits them: sorted ascending. -/
def keysOf {α : Type} (key : α → String) (rows : List α) : List String :=
  List.insertionSort strLeP ((rows.map key).dedup)

/-- Sum of a measure over the rows of one group. -/
def sumBy {α : Type} (key : α → String) (meas : α → Int) (rows : List α) (k : String) : Int :=
  ((rows.filter (fun r => key r = k)).map meas).sum

/-- `df.groupby(key)[measure].sum()` with the default `sort=True`: one
`(key, summed measure)` pair per distinct key, keys ascending. -/
def groupbySum {α : Type} (key : α → String) (meas : α → Int) (rows : List α) :
    List (String × Int) :=
  (keysOf key rows).map (fun k => (k, sumBy key meas rows k))

/-- Index lookup in a grouped series (the alignment pandas performs when a
series is assigned to a dataframe column). -/
def seriesVal (s : List (String × Int)) (k : String) : Option Int :=
  (s.find? (fun p => decide (p.1 = k))).map Prod.snd

/-- The rows of one quarter: `filtered_data[filtered_data['Quarter'] == q]`
(lines 48-49). -/
def quarterRows (rows : List Record) (q : String) : List Record :=
  rows.filter (fun r => quarterOf r = some q)

/-- One row of the client pivot `client_revenue` (lines 46-53) after
`fillna(0)` and the `Change` column. -/
structure CRRow where
  client : String
  earlierVal : Int
  laterVal : Int
  change : Int
deriving DecidableEq

/-- Lines 46-53.  The first loop iteration assigns the earlier quarter's
grouped series, fixing the dataframe index to that series' (sorted) client
keys; the second assignment aligns the later quarter's series to this index,
leaving NaN where a client has no later-quarter rows; `fillna(0)` replaces
those NaNs; `Change = later - earlier`. -/
def clientRevenue (earlier later : String) (rows : List Record) : List CRRow :=
  let sEarlier := groupbySum (fun r => r.clientName) (fun r => r.revenue.getD 0)
    (quarterRows rows earlier)
  let sLater := groupbySum (fun r => r.clientName) (fun r => r.revenue.getD 0)
    (quarterRows rows later)
  sEarlier.map (fun p =>
    let v := (seriesVal sLater p.1).getD 0
    { client := p.1, earlierVal := p.2, laterVal := v, change := v - p.2 })

/-- Line 54: `client_revenue[client_revenue['2024Q1'] == 0]` — the rows of
the pivot whose later-quarter value is 0. -/
def lostClients (pivot : List CRRow) : List CRRow :=
  pivot.filter (fun row => decide (row.laterVal = 0))

/-- Line 82, `nsmallest(n, field)` with the default `keep='first'`: the `n`
smallest rows by the field, ascending, ties resolved by original position
(pandas implements this with a stable sort and a prefix take). -/
def nsmallest {α : Type} (n : Nat) (key : α → Int) (l : List α) : List α :=
  (List.insertionSort (fun a b => key a ≤ key b) l).take n

/-- The distinct quarter labels observed in the data: the columns produced
by `.unstack(fill_value=0)` on line 97 before the reindex. -/
def observedQuarters (rows : List Record) : List String :=
  (rows.filterMap quarterOf).dedup

/-- The service-line index of the pivot on line 97 (rows with an unparseable
quarter would have been dropped by `groupby` as NaN keys). -/
def slLines (rows : List Record) : List String :=
  keysOf (fun r => r.serviceLine) (rows.filter (fun r => (quarterOf r).isSome))

/-- One cell of the reindexed pivot (lines 97-98): if the quarter label was
observed anywhere, `unstack(fill_value=0)` supplies the group's sum (0 when
the group has no rows in that quarter); `reindex` introduces a column of NaN
for a configured quarter never observed. -/
def slCell (rows : List Record) (l q : String) : Option Int :=
  if q ∈ observedQuarters rows then
    some (((rows.filter (fun r => r.serviceLine = l ∧ quarterOf r = some q)).map
      (fun r => r.revenue.getD 0)).sum)
  else none

/-- One row of `service_line_quarterly` (lines 97-99): the service line, one
cell per configured quarter, and the `Change` column (NaN-propagating
subtraction of the two quarter cells). -/
structure SLRow where
  line : String
  cells : List (String × Option Int)
  change : Option Int
deriving DecidableEq

/-- Lines 97-99: group by service line and quarter, sum revenue, unstack with
`fill_value=0`, reindex the columns to the configured quarter list, then
`Change = later - earlier` on the reindexed columns. -/
def serviceLineQuarterly (rows : List Record) (quarters : List String)
    (earlier later : String) : List SLRow :=
  (slLines rows).map (fun l =>
    { line := l
      cells := quarters.map (fun q => (q, slCell rows l q))
      change :=
        match slCell rows l later, slCell rows l earlier with
        | some a, some b => some (a - b)
        | _, _ => none })

/-- Line 258: `filtered_data.groupby(['[Year-Month]'])['Revenue'].sum()` —
monthly revenue, keys in the sorted order `groupby` emits. -/
def monthlyRevenue (rows : List Record) : List (String × Int) :=
  groupbySum (fun r => r.yearMonth) (fun r => r.revenue.getD 0) rows

/-- Line 259, `.rolling(window=w).mean()`: same length as the input, `none`
while fewer than `w` values are available, otherwise the mean of the trailing
`w`-value window. -/
def rollingMean (w : Nat) (xs : List ℚ) : List (Option ℚ) :=
  (List.range xs.length).map (fun i =>
    if i + 1 < w then none
    else some (((xs.take (i + 1)).drop (i + 1 - w)).sum / (w : ℚ)))

/-- The rolling-average series of line 259 applied to the monthly series. -/
def viewsHistory (rows : List Record) : List (Option ℚ) :=
  rollingMean 3 ((monthlyRevenue rows).map (fun p => (p.2 : ℚ)))

/-- A digit rendered as a character (callers only pass values `< 10`). -/
def digitChar : Nat → Char
  | 0 => '0'
  | 1 => '1'
  | 2 => '2'
  | 3 => '3'
  | 4 => '4'
  | 5 => '5'
  | 6 => '6'
  | 7 => '7'
  | 8 => '8'
  | _ => '9'

/-- Big-endian digits of a 4-digit year. -/
def pad4digits (y : Nat) : List Nat :=
  [y / 1000, y / 100 % 10, y / 10 % 10, y % 10]

/-- Big-endian digits of a 2-digit month. -/
def pad2digits (m : Nat) : List Nat :=
  [m / 10, m % 10]

/-- The fixed `"YYYY-MM"` year-month label format of the dataset. -/
def fmtYM (y m : Nat) : String :=
  ⟨(pad4digits y).map digitChar ++ '-' :: (pad2digits m).map digitChar⟩

/-- Concrete inputs used by witnesses and counterexamples. -/
def recY4 : Record := mkRec "Y" "MX" "L1" "O1" "2023-11" (some 50)
def recY1 : Record := mkRec "Y" "MX" "L1" "O1" "2024-01" (some 80)
def recX4 : Record := mkRec "X" "MX" "L2" "O1" "2023-12" (some 100)
def recX1 : Record := mkRec "X" "MX" "L2" "O1" "2024-02" (some 0)
def recZ0 : Record := mkRec "Z" "US" "L2" "O1" "2023-10" (some 0)
def recZ1 : Record := mkRec "Z" "US" "L2" "O1" "2024-03" (some 0)
def recNaN : Record := mkRec "W" "US" "L1" "O1" "2024-01" none
def recOnlyQ1 : Record := mkRec "N" "US" "L1" "O1" "2024-01" (some 5)
def recOnlyQ1' : Record := mkRec "N" "US" "L2" "O1" "2024-01" (some 7)

theorem listLeChars_total : ∀ xs ys, listLeChars xs ys = true ∨ listLeChars ys xs = true := by
  intro xs
  induction xs with
  | nil => intro ys; left; rfl
  | cons a as ih =>
    intro ys
    cases ys with
    | nil => right; rfl
    | cons b bs =>
      simp only [listLeChars]
      rcases lt_trichotomy a b with h | h | h
      · left; simp [h]
      · subst h; simpa [lt_irrefl] using ih bs
      · right; simp [h]

theorem listLeChars_trans : ∀ xs ys zs, listLeChars xs ys = true →
    listLeChars ys zs = true → listLeChars xs zs = true := by
  intro xs
  induction xs with
  | nil => intro ys zs _ _; rfl
  | cons a as ih =>
    intro ys zs h1 h2
    cases ys with
    | nil => simp [listLeChars] at h1
    | cons b bs =>
      cases zs with
      | nil => simp [listLeChars] at h2
      | cons c cs =>
        simp only [listLeChars] at h1 h2 ⊢
        rcases lt_trichotomy a b with hab | hab | hab
        · rcases lt_trichotomy b c with hbc | hbc | hbc
          · simp [lt_trans hab hbc]
          · subst hbc; simp [hab]
          · rw [if_neg (asymm hbc), if_pos hbc] at h2; simp at h2
        · subst hab
          rcases lt_trichotomy a c with hac | hac | hac
          · simp [hac]
          · subst hac
            simp only [lt_irrefl, if_neg] at h1 h2 ⊢
            exact ih bs cs h1 h2
          · rw [if_neg (asymm hac), if_pos hac] at h2; simp at h2
        · rw [if_neg (asymm hab), if_pos hab] at h1; simp at h1

instance : IsTotal String strLeP :=
  ⟨fun s t => listLeChars_total s.data t.data⟩

instance : IsTrans String strLeP :=
  ⟨fun a b c h1 h2 => listLeChars_trans a.data b.data c.data h1 h2⟩

theorem keysOf_sorted {α : Type} (key : α → String) (rows : List α) :
    (keysOf key rows).Sorted strLeP :=
  List.sorted_insertionSort strLeP _

theorem keysOf_nodup {α : Type} (key : α → String) (rows : List α) :
    (keysOf key rows).Nodup :=
  ((List.perm_insertionSort strLeP _).nodup_iff).mpr (List.nodup_dedup _)

theorem mem_keysOf {α : Type} (key : α → String) (rows : List α) (k : String) :
    k ∈ keysOf key rows ↔ k ∈ rows.map key := by
  rw [keysOf, List.mem_insertionSort, List.mem_dedup]

theorem groupbySum_map_fst {α : Type} (key : α → String) (meas : α → Int) (rows : List α) :
    (groupbySum key meas rows).map Prod.fst = keysOf key rows := by
  simp [groupbySum, List.map_map, Function.comp_def]

theorem mem_groupbySum {α : Type} {key : α → String} {meas : α → Int} {rows : List α}
    {p : String × Int} (h : p ∈ groupbySum key meas rows) :
    p.1 ∈ rows.map key ∧ p.2 = sumBy key meas rows p.1 := by
  rcases List.mem_map.mp h with ⟨k, hk, rfl⟩
  exact ⟨(mem_keysOf key rows k).mp hk, rfl⟩

theorem find?_map_keys (ks : List String) (f : String → Int) (k : String) :
    (ks.map (fun x => (x, f x))).find? (fun p => decide (p.1 = k)) =
      if k ∈ ks then some (k, f k) else none := by
  induction ks with
  | nil => rfl
  | cons k' ks ih =>
    by_cases hk : k' = k
    · subst hk; simp
    · simp only [List.map]
      rw [List.find?_cons_of_neg _ (by simpa using hk), ih]
      have hk' : ¬k = k' := fun h => hk h.symm
      simp [List.mem_cons, hk']

theorem seriesVal_groupbySum {α : Type} (key : α → String) (meas : α → Int) (rows : List α)
    (k : String) :
    seriesVal (groupbySum key meas rows) k =
      if k ∈ rows.map key then some (sumBy key meas rows k) else none := by
  unfold seriesVal groupbySum
  rw [find?_map_keys]
  by_cases h : k ∈ rows.map key
  · rw [if_pos ((mem_keysOf key rows k).mpr h), if_pos h]; rfl
  · rw [if_neg (fun hm => h ((mem_keysOf key rows k).mp hm)), if_neg h]; rfl

theorem sumBy_eq_zero {α : Type} {key : α → String} {meas : α → Int} {rows : List α}
    {k : String} (h : k ∉ rows.map key) : sumBy key meas rows k = 0 := by
  have hf : rows.filter (fun r => decide (key r = k)) = [] := by
    rw [List.filter_eq_nil_iff]
    intro a ha hk
    exact h (List.mem_map.mpr ⟨a, ha, by simpa using hk⟩)
  simp [sumBy, hf]

theorem seriesVal_getD {α : Type} (key : α → String) (meas : α → Int) (rows : List α)
    (k : String) :
    (seriesVal (groupbySum key meas rows) k).getD 0 = sumBy key meas rows k := by
  rw [seriesVal_groupbySum]
  by_cases h : k ∈ rows.map key
  · simp [h]
  · simp [h, sumBy_eq_zero h]

theorem sumBy_quarterRows (rows : List Record) (q c : String) :
    sumBy (fun r => r.clientName) (fun r => r.revenue.getD 0) (quarterRows rows q) c =
      ((rows.filter (fun r => r.clientName = c ∧ quarterOf r = some q)).map
        (fun r => r.revenue.getD 0)).sum := by
  unfold sumBy quarterRows
  rw [List.filter_filter]
  simp

theorem clientRevenue_mem {earlier later : String} {rows : List Record} {row : CRRow}
    (h : row ∈ clientRevenue earlier later rows) :
    row.change = row.laterVal - row.earlierVal ∧
    row.earlierVal = ((rows.filter (fun r => r.clientName = row.client ∧
      quarterOf r = some earlier)).map (fun r => r.revenue.getD 0)).sum ∧
    row.laterVal = ((rows.filter (fun r => r.clientName = row.client ∧
      quarterOf r = some later)).map (fun r => r.revenue.getD 0)).sum := by
  unfold clientRevenue at h
  rcases List.mem_map.mp h with ⟨p, hp, rfl⟩
  refine ⟨rfl, ?_, ?_⟩
  · have h2 := (mem_groupbySum hp).2
    simpa [sumBy_quarterRows] using h2
  · show (seriesVal _ p.1).getD 0 = _
    rw [seriesVal_getD, sumBy_quarterRows]

theorem passes_iff (excl : List String) (minRev : Int) (allowed : List String) (r : Record) :
    passes excl minRev allowed r = true ↔
      (r.country ∉ excl ∧ (∃ v, r.revenue = some v ∧ minRev ≤ v) ∧
        r.yearMonth ∈ allowed) := by
  unfold passes
  cases hr : r.revenue with
  | none => simp [hr]
  | some v => simp [hr, and_assoc]

theorem parseYearMonth_bounds {s : String} {y m : Nat}
    (h : parseYearMonth s = some (y, m)) : 1 ≤ m ∧ m ≤ 12 := by
  unfold parseYearMonth at h
  split at h
  · split at h
    · split_ifs at h with hc
      cases h
      exact hc
    · exact absurd h (by simp)
  · exact absurd h (by simp)

theorem filter_orderedInsert_keyEq {α : Type} (key : α → Int) (k : Int) (x : α) :
    ∀ s : List α,
      (List.orderedInsert (fun a b => key a ≤ key b) x s).filter
          (fun y => decide (key y = k)) =
        if key x = k then x :: s.filter (fun y => decide (key y = k))
        else s.filter (fun y => decide (key y = k)) := by
  intro s
  induction s with
  | nil =>
    by_cases h : key x = k
    · simp [List.orderedInsert, h]
    · simp [List.orderedInsert, h]
  | cons b s ih =>
    simp only [List.orderedInsert]
    by_cases hle : key x ≤ key b
    · rw [if_pos hle]
      by_cases h : key x = k
      · simp [List.filter_cons, h]
      · simp [List.filter_cons, h]
    · rw [if_neg hle]
      by_cases hb : key b = k
      · have hxk : ¬key x = k := fun hxx => hle (le_of_eq (hxx.trans hb.symm))
        simp [List.filter_cons, hb, hxk, ih]
      · simp [List.filter_cons, hb, ih]

theorem filter_insertionSort_keyEq {α : Type} (key : α → Int) (k : Int) (l : List α) :
    (List.insertionSort (fun a b => key a ≤ key b) l).filter (fun y => decide (key y = k)) =
      l.filter (fun y => decide (key y = k)) := by
  induction l with
  | nil => rfl
  | cons x l ih =>
    simp only [List.insertionSort]
    rw [filter_orderedInsert_keyEq]
    by_cases h : key x = k
    · simp [List.filter_cons, h, ih]
    · simp [List.filter_cons, h, ih]

theorem filter_take_pref {α : Type} : ∀ (n : Nat) (p : α → Bool) (l : List α),
    ∃ t, (l.take n).filter p ++ t = l.filter p := by
  intro n p l
  induction l generalizing n with
  | nil => exact ⟨[], by simp⟩
  | cons a l ih =>
    cases n with
    | zero => exact ⟨(a :: l).filter p, by simp⟩
    | succ n =>
      simp only [List.take, List.filter_cons]
      by_cases h : p a
      · obtain ⟨t, ht⟩ := ih n
        exact ⟨t, by simp [h, List.cons_append, ht]⟩
      · simpa [h] using ih n

theorem digitChar_lt_iff {a b : Nat} (ha : a < 10) (hb : b < 10) :
    digitChar a < digitChar b ↔ a < b := by
  have H : ∀ x y : Fin 10, (digitChar x.val < digitChar y.val ↔ x.val < y.val) := by decide
  exact H ⟨a, ha⟩ ⟨b, hb⟩

theorem digitChar_eq_iff {a b : Nat} (ha : a < 10) (hb : b < 10) :
    digitChar a = digitChar b ↔ a = b := by
  have H : ∀ x y : Fin 10, (digitChar x.val = digitChar y.val ↔ x.val = y.val) := by decide
  exact H ⟨a, ha⟩ ⟨b, hb⟩

theorem listLeChars_cons (a b : Char) (as bs : List Char) :
    listLeChars (a :: as) (b :: bs) = true ↔
      a < b ∨ (a = b ∧ listLeChars as bs = true) := by
  simp only [listLeChars]
  rcases lt_trichotomy a b with h | h | h
  · simp [h]
  · subst h; simp [lt_irrefl]
  · simp [h, asymm h, ne_of_gt h]

theorem strLe_mk (l1 l2 : List Char) : strLe ⟨l1⟩ ⟨l2⟩ = listLeChars l1 l2 :=
  rfl

theorem fmtYM_le_iff {y1 m1 y2 m2 : Nat} (hy1 : y1 < 10000) (hy2 : y2 < 10000)
    (hm1 : m1 < 100) (hm2 : m2 < 100) :
    strLeP (fmtYM y1 m1) (fmtYM y2 m2) ↔ (y1 < y2 ∨ (y1 = y2 ∧ m1 ≤ m2)) := by
  have d1 : y1 / 1000 < 10 := by omega
  have d2 : y1 / 100 % 10 < 10 := by omega
  have d3 : y1 / 10 % 10 < 10 := by omega
  have d4 : y1 % 10 < 10 := by omega
  have e1 : y2 / 1000 < 10 := by omega
  have e2 : y2 / 100 % 10 < 10 := by omega
  have e3 : y2 / 10 % 10 < 10 := by omega
  have e4 : y2 % 10 < 10 := by omega
  have f1 : m1 / 10 < 10 := by omega
  have f2 : m1 % 10 < 10 := by omega
  have g1 : m2 / 10 < 10 := by omega
  have g2 : m2 % 10 < 10 := by omega
  unfold strLeP fmtYM pad4digits pad2digits
  rw [strLe_mk]
  simp only [List.map_cons, List.map_nil, List.cons_append, List.nil_append]
  rw [listLeChars_cons, listLeChars_cons, listLeChars_cons, listLeChars_cons,
    listLeChars_cons, listLeChars_cons, listLeChars_cons]
  rw [digitChar_lt_iff d1 e1, digitChar_eq_iff d1 e1,
    digitChar_lt_iff d2 e2, digitChar_eq_iff d2 e2,
    digitChar_lt_iff d3 e3, digitChar_eq_iff d3 e3,
    digitChar_lt_iff d4 e4, digitChar_eq_iff d4 e4,
    digitChar_lt_iff f1 g1, digitChar_eq_iff f1 g1,
    digitChar_lt_iff f2 g2, digitChar_eq_iff f2 g2]
  simp only [lt_self_iff_false, false_or, true_and, listLeChars, and_true]
  omega

/-- C1, counterexample: on the concrete records `[recY4, recY1]` (client Y
with revenue 50 in 2023Q4 and 80 in 2024Q1) the pivot has one row, but
`lost_clients` is empty — the operation removes the row with nonzero
later-quarter value instead of returning every input row merely tagged. -/
theorem claim_C1_counterexample :
    clientRevenue "2023Q4" "2024Q1" [recY4, recY1] = [⟨"Y", 50, 80, 30⟩] ∧
    lostClients (clientRevenue "2023Q4" "2024Q1" [recY4, recY1]) = [] := by
  decide

/-- C1 (amended): the lost-client selection (line 54) returns exactly those
pivot rows whose later-quarter value equals 0 — a filter that removes the
other rows (not a tag-only operation) — preserving their order; by the
membership characterisation a row with 0 in both quarters is still kept. -/
theorem claim_C1 (pivot : List CRRow) :
    List.Sublist (lostClients pivot) pivot ∧
    (∀ row, row ∈ lostClients pivot ↔ row ∈ pivot ∧ row.laterVal = 0) := by
  refine ⟨List.filter_sublist _, fun row => ?_⟩
  simp [lostClients, List.mem_filter]

/-- C1, witness: a client with zero revenue in both quarters is classified
lost. -/
theorem claim_C1_witness :
    (⟨"Z", 0, 0, 0⟩ : CRRow) ∈ lostClients (clientRevenue "2023Q4" "2024Q1" [recZ0, recZ1]) :=
  ((claim_C1 (clientRevenue "2023Q4" "2024Q1" [recZ0, recZ1])).2 ⟨"Z", 0, 0, 0⟩).mpr
    (by decide)

/-- C4 (confirmed): the filter output is exactly the subsequence of input
records with country not excluded, present revenue at least the minimum, and
year-month among the allowed periods; it is a sublist (subset, no
duplication, no reordering), empty exclusions exclude nothing, and an empty
allowed-period set yields an empty result, not an error.  (The embedding is
a pure function, so the record store is of course unchanged.) -/
theorem claim_C4 (rows : List Record) (excl : List String) (minRev : Int)
    (allowed : List String) :
    List.Sublist (filteredData rows excl minRev allowed) rows ∧
    (∀ r, r ∈ filteredData rows excl minRev allowed ↔
      r ∈ rows ∧ r.country ∉ excl ∧ (∃ v, r.revenue = some v ∧ minRev ≤ v) ∧
        r.yearMonth ∈ allowed) ∧
    (∀ r, r ∈ filteredData rows [] minRev allowed ↔
      r ∈ rows ∧ (∃ v, r.revenue = some v ∧ minRev ≤ v) ∧ r.yearMonth ∈ allowed) ∧
    filteredData rows excl minRev [] = [] := by
  refine ⟨List.filter_sublist _, fun r => ?_, fun r => ?_, ?_⟩
  · rw [filteredData, List.mem_filter, passes_iff]
  · rw [filteredData, List.mem_filter, passes_iff]
    simp
  · rw [filteredData, List.filter_eq_nil_iff]
    intro a _ hp
    rw [passes_iff] at hp
    exact absurd hp.2.2 (List.not_mem_nil _)

/-- C4, witness: a concrete surviving record. -/
theorem claim_C4_witness :
    recY4 ∈ filteredData [recY4, recNaN] [] 0 ["2023-11"] :=
  ((claim_C4 [recY4, recNaN] [] 0 ["2023-11"]).2.1 recY4).mpr
    ⟨by decide, by decide, ⟨50, rfl, by decide⟩, by decide⟩

/-- C7, counterexample: a record whose revenue is missing is dropped by the
filter stage (NaN compares false against any threshold, here even -100), so
it does not survive filtering as the claim asserts. -/
theorem claim_C7_counterexample :
    filteredData [recNaN] [] (-100) ["2024-01"] = [] := by
  decide

/-- C7 (amended): a missing-revenue record is never a fatal error, but it
does not survive the revenue-threshold filter; in aggregation sums a missing
measure contributes 0 (summing only the present-revenue rows gives the same
total). -/
theorem claim_C7 :
    (∀ (rows : List Record) (excl : List String) (minRev : Int) (allowed : List String)
        (r : Record), r.revenue = none → r ∉ filteredData rows excl minRev allowed) ∧
    (∀ (key : Record → String) (rows : List Record) (k : String),
      sumBy key (fun r => r.revenue.getD 0) rows k =
        sumBy key (fun r => r.revenue.getD 0)
          (rows.filter (fun r => r.revenue.isSome)) k) := by
  constructor
  · intro rows excl minRev allowed r hr hmem
    rw [filteredData, List.mem_filter] at hmem
    have hp := hmem.2
    rw [passes_iff] at hp
    rcases hp.2.1 with ⟨v, hv, _⟩
    rw [hr] at hv
    cases hv
  · intro key rows k
    unfold sumBy
    rw [List.filter_filter]
    induction rows with
    | nil => rfl
    | cons r rows ih =>
      by_cases hk : key r = k
      · cases hv : r.revenue with
        | none => simp [List.filter_cons, hk, hv, ih]
        | some v => simp [List.filter_cons, hk, hv, ih]
      · simp [List.filter_cons, hk, ih]

/-- C7, witness: the two amended facts at concrete inputs. -/
theorem claim_C7_witness :
    recNaN ∉ filteredData [recNaN, recY4] ["FR"] (-100) ["2024-01"] ∧
    sumBy (fun r => r.clientName) (fun r => r.revenue.getD 0) [recNaN, recY4] "W" =
      sumBy (fun r => r.clientName) (fun r => r.revenue.getD 0)
        ([recNaN, recY4].filter (fun r => r.revenue.isSome)) "W" :=
  ⟨claim_C7.1 _ _ _ _ recNaN rfl, claim_C7.2 _ _ _⟩

/-- C8, counterexample: with input keys first seen in the order Y, X, the
grouping emits X, Y — `groupby(sort=True)` orders the output by sorted key,
not by first-seen occurrence. -/
theorem claim_C8_counterexample :
    (groupbySum (fun r => r.clientName) (fun r => r.revenue.getD 0) [recY4, recX4]).map
        Prod.fst = ["X", "Y"] ∧
    ([recY4, recX4].map (fun r => r.clientName)).dedup = ["Y", "X"] ∧
    (["X", "Y"] : List String) ≠ ["Y", "X"] := by
  decide

/-- C8 (amended): grouping is a deterministic function of the input list
(never of hash/iteration order): the output rows are ordered by ascending
group key — sorted, not first-seen — with one row per distinct key, and each
row carries the exact sum of the measure over its group's records. -/
theorem claim_C8 {α : Type} (key : α → String) (meas : α → Int) (rows : List α) :
    ((groupbySum key meas rows).map Prod.fst).Sorted strLeP ∧
    ((groupbySum key meas rows).map Prod.fst).Nodup ∧
    (∀ k, k ∈ (groupbySum key meas rows).map Prod.fst ↔ k ∈ rows.map key) ∧
    (∀ p ∈ groupbySum key meas rows,
      p.2 = ((rows.filter (fun r => key r = p.1)).map meas).sum) := by
  rw [groupbySum_map_fst]
  exact ⟨keysOf_sorted key rows, keysOf_nodup key rows, mem_keysOf key rows,
    fun p hp => (mem_groupbySum hp).2⟩

/-- C8, witness: the sorted-keys fact and one group's sum at a concrete
input. -/
theorem claim_C8_witness :
    ((groupbySum (fun r => r.clientName) (fun r => r.revenue.getD 0) [recY4, recX4]).map
        Prod.fst).Sorted strLeP ∧
    ("Y", (50 : Int)).2 = (([recY4, recX4].filter (fun r => r.clientName = "Y")).map
        (fun r => r.revenue.getD 0)).sum :=
  ⟨(claim_C8 (fun r => r.clientName) (fun r => r.revenue.getD 0) [recY4, recX4]).1,
    (claim_C8 (fun r => r.clientName) (fun r => r.revenue.getD 0) [recY4, recX4]).2.2.2
      ("Y", 50) (by decide)⟩

/-- C2, counterexample: a filtered dataset whose records all fall in 2024Q1.
After `unstack(fill_value=0).reindex(columns=quarters)` the configured
2023Q4 column exists but is missing (NaN) in every row — `reindex` fills a
never-observed quarter with NaN, not 0 — so "every configured quarter column
is non-missing in every output row" fails. -/
theorem claim_C2_counterexample :
    serviceLineQuarterly [recOnlyQ1] ["2023Q4", "2024Q1"] "2023Q4" "2024Q1" =
      [⟨"L1", [("2023Q4", none), ("2024Q1", some 5)], none⟩] := by
  decide

/-- C2 (amended): every configured quarter column is present in every pivot
row, and — provided each configured quarter is observed somewhere in the
filtered data — every cell is non-missing and equals the group's revenue sum
for that quarter, which is 0 when the group has no matching records; a
configured quarter observed nowhere instead yields missing (NaN) cells. -/
theorem claim_C2 (rows : List Record) (quarters : List String) (earlier later : String)
    (hobs : ∀ q ∈ quarters, q ∈ observedQuarters rows) :
    ∀ row ∈ serviceLineQuarterly rows quarters earlier later,
      row.cells.map Prod.fst = quarters ∧
      ∀ q v, (q, v) ∈ row.cells →
        v = some (((rows.filter (fun r => r.serviceLine = row.line ∧
            quarterOf r = some q)).map (fun r => r.revenue.getD 0)).sum) ∧
        (rows.filter (fun r => r.serviceLine = row.line ∧ quarterOf r = some q) = [] →
          v = some 0) := by
  intro row hrow
  unfold serviceLineQuarterly at hrow
  rcases List.mem_map.mp hrow with ⟨l, _, rfl⟩
  dsimp only
  constructor
  · simp [List.map_map, Function.comp_def]
  · intro q v hqv
    simp only [List.mem_map] at hqv
    rcases hqv with ⟨q', hq', heq⟩
    injection heq with h1 h2
    subst h1
    subst h2
    have hobs' := hobs q' hq'
    rw [slCell, if_pos hobs']
    refine ⟨rfl, fun hnil => ?_⟩
    rw [hnil]
    rfl

/-- C2, witness: with both configured quarters observed, each cell is the
filled (non-missing) group sum; here the single row has both columns. -/
theorem claim_C2_witness :
    (⟨"L1", [("2023Q4", some 50), ("2024Q1", some 80)], some 30⟩ : SLRow).cells.map
        Prod.fst = ["2023Q4", "2024Q1"] :=
  (claim_C2 [recY4, recY1] ["2023Q4", "2024Q1"] "2023Q4" "2024Q1" (by decide)
    ⟨"L1", [("2023Q4", some 50), ("2024Q1", some 80)], some 30⟩ (by decide)).1

/-- C3, counterexample: with a single 2024Q1 record of revenue 7, the
service-line pivot's change cell is missing (NaN, because the reindexed
2023Q4 operand is missing), while recomputing later-minus-earlier from the
raw records gives 7 — so "both operands are non-missing and the change
always equals the raw recomputation" fails. -/
theorem claim_C3_counterexample :
    (serviceLineQuarterly [recOnlyQ1'] ["2023Q4", "2024Q1"] "2023Q4" "2024Q1").map
        SLRow.change = [none] ∧
    (([recOnlyQ1'].filter (fun r => r.serviceLine = "L2" ∧
        quarterOf r = some "2024Q1")).map (fun r => r.revenue.getD 0)).sum -
      (([recOnlyQ1'].filter (fun r => r.serviceLine = "L2" ∧
        quarterOf r = some "2023Q4")).map (fun r => r.revenue.getD 0)).sum = 7 := by
  decide

/-- C3 (amended): in the client pivot the change field always equals
later-minus-earlier with both operands present and equal to the sums
recomputed from the raw records (0-filled); in the service-line pivot the
same identity holds provided both configured quarters are observed in the
data (otherwise the operand and the change are missing). -/
theorem claim_C3 :
    (∀ (earlier later : String) (rows : List Record) (row : CRRow),
      row ∈ clientRevenue earlier later rows →
        row.change = row.laterVal - row.earlierVal ∧
        row.earlierVal = ((rows.filter (fun r => r.clientName = row.client ∧
          quarterOf r = some earlier)).map (fun r => r.revenue.getD 0)).sum ∧
        row.laterVal = ((rows.filter (fun r => r.clientName = row.client ∧
          quarterOf r = some later)).map (fun r => r.revenue.getD 0)).sum) ∧
    (∀ (rows : List Record) (quarters : List String) (earlier later : String) (row : SLRow),
      earlier ∈ observedQuarters rows → later ∈ observedQuarters rows →
      row ∈ serviceLineQuarterly rows quarters earlier later →
        row.change = some
          ((((rows.filter (fun r => r.serviceLine = row.line ∧
              quarterOf r = some later)).map (fun r => r.revenue.getD 0)).sum) -
            (((rows.filter (fun r => r.serviceLine = row.line ∧
              quarterOf r = some earlier)).map (fun r => r.revenue.getD 0)).sum))) := by
  constructor
  · intro earlier later rows row h
    exact clientRevenue_mem h
  · intro rows quarters earlier later row hE hL hrow
    unfold serviceLineQuarterly at hrow
    rcases List.mem_map.mp hrow with ⟨l, _, rfl⟩
    dsimp only
    rw [slCell, if_pos hL, slCell, if_pos hE]

/-- C3, witness: for client Y (50 in 2023Q4, 80 in 2024Q1) the change field
of its pivot row equals later minus earlier. -/
theorem claim_C3_witness :
    (⟨"Y", 50, 80, 30⟩ : CRRow).change =
      (⟨"Y", 50, 80, 30⟩ : CRRow).laterVal - (⟨"Y", 50, 80, 30⟩ : CRRow).earlierVal :=
  (claim_C3.1 "2023Q4" "2024Q1" [recY4, recY1] ⟨"Y", 50, 80, 30⟩ (by decide)).1

/-- C9 (confirmed): whenever a year-month label parses as year `y` and month
`m`, `toQuarter` returns the label `"<y>Q<q>"` with `q = (m+2)/3 = ⌈m/3⌉`
(characterised by `3q-2 ≤ m ≤ 3q`) lying in `1..4`; whenever the label does
not parse, `toQuarter` fails with `none` instead of returning a label. -/
theorem claim_C9 :
    (∀ (s : String) (y m : Nat), parseYearMonth s = some (y, m) →
      toQuarter s = some (toString y ++ "Q" ++ toString ((m + 2) / 3)) ∧
      1 ≤ (m + 2) / 3 ∧ (m + 2) / 3 ≤ 4 ∧
      3 * ((m + 2) / 3) - 2 ≤ m ∧ m ≤ 3 * ((m + 2) / 3)) ∧
    (∀ s : String, parseYearMonth s = none → toQuarter s = none) := by
  constructor
  · intro s y m h
    have hb := parseYearMonth_bounds h
    refine ⟨by rw [toQuarter, h]; rfl, ?_, ?_, ?_, ?_⟩ <;> omega
  · intro s h
    rw [toQuarter, h]
    rfl

/-- C9, witness: `"2023-11"` parses to month 11 and yields quarter label
`"2023Q4"`. -/
theorem claim_C9_witness : toQuarter "2023-11" = some "2023Q4" := by
  have h := (claim_C9.1 "2023-11" 2023 11 (by decide)).1
  exact h.trans (by decide)

/-- C5 (confirmed): for any series and window `w > 0` the rolling average
has the same length as the input, is missing at every index `i < w-1`, and
at every index `i ≥ w-1` equals the arithmetic mean of the trailing window
`value[i-w+1 .. i]` (a slice of exactly `w` elements); in particular the
series `[10,20,30,40]` with window 3 yields `[missing, missing, 20, 30]`. -/
theorem claim_C5 :
    (∀ (xs : List ℚ) (w : Nat), 0 < w →
      (rollingMean w xs).length = xs.length ∧
      (∀ i, i < xs.length → i + 1 < w → (rollingMean w xs)[i]? = some none) ∧
      (∀ i, i < xs.length → w ≤ i + 1 →
        ((xs.drop (i + 1 - w)).take w).length = w ∧
        (rollingMean w xs)[i]? =
          some (some (((xs.drop (i + 1 - w)).take w).sum / (w : ℚ))))) ∧
    rollingMean 3 [10, 20, 30, 40] = [none, none, some 20, some 30] := by
  constructor
  · intro xs w _
    refine ⟨by simp [rollingMean], ?_, ?_⟩
    · intro i hi hiw
      rw [rollingMean, List.getElem?_map, List.getElem?_range hi]
      simp [hiw]
    · intro i hi hwi
      refine ⟨?_, ?_⟩
      · rw [List.length_take, List.length_drop]
        have hle : w ≤ xs.length - (i + 1 - w) := by omega
        exact min_eq_left hle
      rw [rollingMean, List.getElem?_map, List.getElem?_range hi]
      have hsw : (xs.take (i + 1)).drop (i + 1 - w) = (xs.drop (i + 1 - w)).take w := by
        rw [List.take_drop]
        have harith : i + 1 - w + w = i + 1 := by omega
        rw [harith]
      simp only [Option.map_some', if_neg (by omega : ¬i + 1 < w), hsw]
  · norm_num [rollingMean, List.range_succ]

/-- C5, witness: the theorem applied at the concrete series `[10,20,30,40]`
with window 3 gives the length claim. -/
theorem claim_C5_witness : (rollingMean 3 [(10 : ℚ), 20, 30, 40]).length = 4 := by
  have h := (claim_C5.1 [(10 : ℚ), 20, 30, 40] 3 (by norm_num)).1
  simpa using h

/-- C6 (confirmed): the `n`-smallest selection returns `min n len` rows,
sorted ascending by the ranking field; every unselected row's field value is
at least every selected one's; within any tie class the selected rows are an
initial segment of the input's rows in original (first-seen) order; and on
rows A:-50, B:-10, C:5, D:-50 with n = 2 the result is [A, D] — the tied
rows A and D appear in their original relative order. -/
theorem claim_C6 :
    (∀ (α : Type) (key : α → Int) (n : Nat) (l : List α),
      (nsmallest n key l).length = min n l.length ∧
      (nsmallest n key l).Pairwise (fun a b => key a ≤ key b) ∧
      (∀ b ∈ l, b ∉ nsmallest n key l → ∀ a ∈ nsmallest n key l, key a ≤ key b) ∧
      (∀ k : Int, ∃ t, (nsmallest n key l).filter (fun y => decide (key y = k)) ++ t =
        l.filter (fun y => decide (key y = k)))) ∧
    nsmallest 2 Prod.snd [("A", (-50 : Int)), ("B", -10), ("C", 5), ("D", -50)] =
      [("A", -50), ("D", -50)] := by
  constructor
  · intro α key n l
    haveI : IsTotal α (fun a b => key a ≤ key b) := ⟨fun a b => le_total _ _⟩
    haveI : IsTrans α (fun a b => key a ≤ key b) := ⟨fun _ _ _ h1 h2 => le_trans h1 h2⟩
    set s := List.insertionSort (fun a b => key a ≤ key b) l with hs
    have hsorted : s.Pairwise (fun a b => key a ≤ key b) :=
      List.sorted_insertionSort _ l
    refine ⟨?_, ?_, ?_, ?_⟩
    · rw [show nsmallest n key l = s.take n from rfl, List.length_take, hs,
        List.length_insertionSort]
    · exact List.Pairwise.sublist (List.take_sublist n s) hsorted
    · intro b hb hnb a ha
      have hbs : b ∈ s := by
        rw [hs, List.mem_insertionSort]
        exact hb
      have hsplit := List.take_append_drop n s
      have hbd : b ∈ s.drop n := by
        rcases List.mem_append.mp (by rw [hsplit]; exact hbs) with hmem | hmem
        · exact absurd hmem hnb
        · exact hmem
      have hp : (s.take n ++ s.drop n).Pairwise (fun a b => key a ≤ key b) := by
        rw [hsplit]
        exact hsorted
      exact (List.pairwise_append.mp hp).2.2 a ha b hbd
    · intro k
      obtain ⟨t, ht⟩ := filter_take_pref n (fun y => decide (key y = k)) s
      refine ⟨t, ?_⟩
      rw [show nsmallest n key l = s.take n from rfl, ht, hs, filter_insertionSort_keyEq]
  · decide

/-- C6, witness: the unselected row B has a field value at least that of the
selected tied row D, via the theorem at the concrete four-row input. -/
theorem claim_C6_witness :
    Prod.snd ("D", (-50 : Int)) ≤ Prod.snd ("B", (-10 : Int)) :=
  (claim_C6.1 (String × Int) Prod.snd 2
    [("A", -50), ("B", -10), ("C", 5), ("D", -50)]).2.2.1
    ("B", -10) (by decide) (by decide) ("D", -50) (by decide)

/-- C10 (confirmed): when every record's year-month label has the fixed
`"YYYY-MM"` format, the monthly series' group keys are emitted sorted in
string (lexicographic) order, every key still has the format, and for any
two keys in emitted order the decoded periods are chronologically
non-decreasing — so the series reaching the rolling-average step is already
period-ascending without an explicit sort. -/
theorem claim_C10 (rows : List Record)
    (h : ∀ r ∈ rows, ∃ y m, y < 10000 ∧ 1 ≤ m ∧ m ≤ 12 ∧ r.yearMonth = fmtYM y m) :
    ((monthlyRevenue rows).map Prod.fst).Sorted strLeP ∧
    (∀ k ∈ (monthlyRevenue rows).map Prod.fst,
      ∃ y m, y < 10000 ∧ 1 ≤ m ∧ m ≤ 12 ∧ k = fmtYM y m) ∧
    ((monthlyRevenue rows).map Prod.fst).Pairwise (fun s t =>
      ∀ y1 m1 y2 m2, y1 < 10000 → m1 < 100 → y2 < 10000 → m2 < 100 →
        s = fmtYM y1 m1 → t = fmtYM y2 m2 → y1 < y2 ∨ (y1 = y2 ∧ m1 ≤ m2)) := by
  have hfst : (monthlyRevenue rows).map Prod.fst = keysOf (fun r => r.yearMonth) rows :=
    groupbySum_map_fst _ _ _
  have hsorted : ((monthlyRevenue rows).map Prod.fst).Sorted strLeP := by
    rw [hfst]
    exact keysOf_sorted _ _
  refine ⟨hsorted, ?_, ?_⟩
  · intro k hk
    rw [hfst, mem_keysOf] at hk
    rcases List.mem_map.mp hk with ⟨r, hr, rfl⟩
    exact h r hr
  · refine List.Pairwise.imp ?_ hsorted
    intro a b hab y1 m1 y2 m2 hy1 hm1 hy2 hm2 he1 he2
    subst he1
    subst he2
    exact (fmtYM_le_iff hy1 hy2 hm1 hm2).mp hab

/-- C10, witness: the monthly keys of two formatted records come out
sorted. -/
theorem claim_C10_witness :
    ((monthlyRevenue [recY4, recY1]).map Prod.fst).Sorted strLeP := by
  refine (claim_C10 [recY4, recY1] ?_).1
  intro r hr
  rcases List.mem_cons.mp hr with hr1 | hr'
  · exact ⟨2023, 11, by norm_num, by norm_num, by norm_num, by rw [hr1]; decide⟩
  rcases List.mem_cons.mp hr' with hr2 | hr''
  · exact ⟨2024, 1, by norm_num, by norm_num, by norm_num, by rw [hr2]; decide⟩
  · exact absurd hr'' (List.not_mem_nil r)
